import Mathlib

/-!
Verification of the ralph-orchestrator mobile-server core against its
specification.  The development shallowly embeds the Rust source of
`crates/ralph-mobile-server/src/{session.rs, watcher.rs, api/runner.rs}`:
strings are `List Char`, filesystem paths are lists of name segments, the
filesystem and the OS process interface are explicit inputs, and the
`tokio` broadcast channel / `ralph-core` event reader (external to the
embedded sources) are modelled at their specified boundary.
-/

/-- Strings are embedded as lists of characters so that every string
operation is a structural recursion the kernel can evaluate. -/
abbrev Str := List Char

/-- Convert a Lean string literal to the embedded string type. -/
def str (s : String) : Str := s.data

/-- Whitespace test used by `trim`; embeds Rust `char::is_whitespace`
restricted to the ASCII whitespace characters that occur in the data
this system handles. -/
def isWsChar (c : Char) : Bool :=
  decide (c = ' ' ∨ c = '\t' ∨ c = '\n' ∨ c = '\r' ∨ c = Char.ofNat 11 ∨ c = Char.ofNat 12)

/-- Embeds Rust `str::trim`: remove whitespace from both ends. -/
def rust_trim (s : Str) : Str :=
  ((s.dropWhile isWsChar).reverse.dropWhile isWsChar).reverse

/-- Split a character list at every occurrence of `sep`; the separator is
not kept.  Splitting the empty list yields one empty piece, matching
Rust `str::split`. -/
def splitChar (sep : Char) : Str → List Str
  | [] => [[]]
  | c :: rest =>
    let r := splitChar sep rest
    if c = sep then [] :: r
    else
      match r with
      | [] => [[c]]
      | h :: t => (c :: h) :: t

/-- Embeds Rust `str::lines`: split at newlines, drop one trailing empty
piece produced by a trailing newline, and strip a trailing carriage
return from each line. -/
def rust_lines (s : Str) : List Str :=
  let parts := splitChar '\n' s
  let parts := if parts.getLast? = some [] then parts.dropLast else parts
  parts.map (fun l => if l.getLast? = some '\r' then l.dropLast else l)

/-- Embeds Rust `str::strip_prefix`: `some` of the remainder when `p` is
a prefix of `s`, otherwise `none`. -/
def stripLead : Str → Str → Option Str
  | [], s => some s
  | _ :: _, [] => none
  | a :: p, b :: s => if a = b then stripLead p s else none

/-- Embeds Rust `str::starts_with`. -/
def leadsWith (p s : Str) : Bool := (stripLead p s).isSome

/-- Embeds Rust `str::ends_with`. -/
def trailsWith (suf s : Str) : Bool := leadsWith suf.reverse s.reverse

/-- Filesystem paths as lists of name segments. -/
abbrev FsPath := List Str

/-- Embeds `Path::join` with a relative string: the relative string is
split into `/`-separated components (empty components are dropped, as
path normalization does) and appended to the base path. -/
def pathJoinRel (p : FsPath) (rel : Str) : FsPath :=
  p ++ (splitChar '/' rel).filter (fun seg => decide (seg ≠ []))

/-- Embeds `session_path.parent().unwrap_or(session_path)` from
`session.rs`: the parent of a path, or the path itself when it has no
parent. -/
def parentOr (p : FsPath) : FsPath := if p = [] then p else p.dropLast

/-- A concrete filesystem snapshot: the regular files (with contents)
and the directories that exist.  All filesystem queries made by the
embedded code are answered from this snapshot. -/
structure FS where
  files : List (FsPath × Str)
  dirs : List FsPath

/-- Whether `p` names a regular file. -/
def FS.isFile (fs : FS) (p : FsPath) : Bool :=
  fs.files.any (fun f => decide (f.1 = p))

/-- Whether `p` names a directory. -/
def FS.isDir (fs : FS) (p : FsPath) : Bool :=
  fs.dirs.any (fun d => decide (d = p))

/-- Embeds `Path::exists`: true for files and directories alike. -/
def FS.pathExists (fs : FS) (p : FsPath) : Bool := fs.isFile p || fs.isDir p

/-- Embeds `fs::read_to_string`: the contents of a regular file, `none`
when the path is absent or not a regular file (the `Err` branch). -/
def FS.readToString (fs : FS) (p : FsPath) : Option Str :=
  (fs.files.find? (fun f => decide (f.1 = p))).map (fun f => f.2)

/-- The names of the immediate children of `p` (files and
directories). -/
def FS.childNames (fs : FS) (p : FsPath) : List Str :=
  (fs.files.map (fun f => f.1) ++ fs.dirs).filterMap fun q =>
    match q.getLast? with
    | some n => if q.dropLast = p then some n else none
    | none => none

/-- Embeds `fs::read_dir`: the entry names of a directory, `none` when
`p` is not a directory (the `Err` branch). -/
def FS.readDir (fs : FS) (p : FsPath) : Option (List Str) :=
  if fs.isDir p then some (fs.childNames p) else none

/-- Hex digit characters as produced by Rust `{:x}` formatting. -/
def hexDigitChar (n : Nat) : Char :=
  if n < 10 then Char.ofNat (48 + n) else Char.ofNat (87 + n)

/-- Zero-padded fixed-width lowercase hex rendering, most significant
digit first; embeds Rust `format!("{:0wx}", n)` for `n` within width. -/
def hexPad (w n : Nat) : Str :=
  (List.range w).reverse.map (fun i => hexDigitChar (n / 16 ^ i % 16))

/-- Embeds `session_id_from_path` from `session.rs`: the 64-bit hash of
the path (the `DefaultHasher` output, abstracted here as the `pathHash`
argument since the hasher is `std` library code) rendered with
`format!("{:016x}", _)`. -/
def session_id_from_path (pathHash : Nat) : Str :=
  hexPad 16 (pathHash % 2 ^ 64)

/-- Modelled from the spec: the `uuid` crate's `Uuid::new_v4()`
rendered with `to_string()` — the spec's "random generation at
spawn-time" identifier (`runner.rs` line 232).  The rendering is the
RFC 4122 hyphenated form `8-4-4-4-12` in lowercase hex with version
nibble `4` and variant bits `10`; the 128 random bits are abstracted as
the argument. -/
def uuid_v4_string (rand : Nat) : Str :=
  let b := rand % 2 ^ 128
  hexPad 8 (b / 2 ^ 96) ++ ['-'] ++
  hexPad 4 (b / 2 ^ 80 % 2 ^ 16) ++ ['-'] ++
  hexPad 4 (4 * 16 ^ 3 + b / 2 ^ 68 % 16 ^ 3) ++ ['-'] ++
  hexPad 4 (8 * 16 ^ 3 + b / 2 ^ 52 % 2 ^ 14) ++ ['-'] ++
  hexPad 12 (b % 2 ^ 48)

/-- The metadata recovered from scratchpad frontmatter
(`session.rs`). -/
structure FrontmatterData where
  task_name : Option Str
  current_hat : Option Str
deriving DecidableEq

/-- Embeds `parse_frontmatter` from `session.rs`: the content must
start with a `---` line; the block runs to the next `---` line; within
the block the last `task_name:` / `current_hat:` lines win, with their
values trimmed. -/
def parse_frontmatter (content : Str) : Option FrontmatterData :=
  let lines := rust_lines content
  if lines.head? = some (str "---") then
    match (lines.drop 1).findIdx? (fun l => decide (l = str "---")) with
    | some end_idx =>
      let yaml_content := List.intercalate (str "\n") ((lines.drop 1).take end_idx)
      let step := fun (acc : Option Str × Option Str) (line : Str) =>
        let acc1 :=
          match stripLead (str "task_name:") line with
          | some v => (some (rust_trim v), acc.2)
          | none => acc
        match stripLead (str "current_hat:") line with
        | some v => (acc1.1, some (rust_trim v))
        | none => acc1
      let r := (rust_lines yaml_content).foldl step (none, none)
      some { task_name := r.1, current_hat := r.2 }
    | none => none
  else none

/-- The `Session` entity of `session.rs`, with timestamps abstracted as
naturals (the wall clock is an input). -/
structure Session where
  id : Str
  path : FsPath
  task_name : Option Str
  iteration : Nat
  hat : Option Str
  started_at : Nat
  last_event_at : Option Nat
deriving DecidableEq

/-- Embeds `session_from_agent_dir` from `session.rs`: read the
co-located scratchpad when present; a missing file, a failed read or
malformed frontmatter all yield `none` metadata fields.  `pathHash` is
the `DefaultHasher` output for `agent_dir` and `now` the wall clock. -/
def session_from_agent_dir (fs : FS) (agent_dir : FsPath) (pathHash now : Nat) :
    Option Session :=
  let scratchpad_path := agent_dir ++ [str "scratchpad.md"]
  let meta : Option Str × Option Str :=
    if fs.pathExists scratchpad_path then
      match fs.readToString scratchpad_path with
      | some content =>
        match parse_frontmatter content with
        | some fm => (fm.task_name, fm.current_hat)
        | none => (none, none)
      | none => (none, none)
    else (none, none)
  some { id := session_id_from_path pathHash, path := agent_dir,
         task_name := meta.1, iteration := 0, hat := meta.2,
         started_at := now, last_event_at := none }

/-- Whether a directory entry name matches the timestamped log pattern
`events-*.jsonl` (`session.rs`). -/
def isEventsFileName (n : Str) : Bool :=
  leadsWith (str "events-") n && trailsWith (str ".jsonl") n

/-- Embeds `resolve_events_path` from `session.rs`: (1) follow the
`current-events` pointer, resolved against the marker directory's
parent, when the pointer exists, reads, and its target exists; (2) else
`events.jsonl` in the marker directory when present; (3) else the last
`events-*.jsonl` entry after sorting by filename; (4) else `none`. -/
def resolve_events_path (fs : FS) (session_path : FsPath) : Option FsPath :=
  let pointer_path := session_path ++ [str "current-events"]
  let viaPointer : Option FsPath :=
    if fs.pathExists pointer_path then
      match fs.readToString pointer_path with
      | some contents =>
        let relative := rust_trim contents
        let project_root := parentOr session_path
        let full_path := pathJoinRel project_root relative
        if fs.pathExists full_path then some full_path else none
      | none => none
    else none
  match viaPointer with
  | some p => some p
  | none =>
    let static_path := session_path ++ [str "events.jsonl"]
    if fs.pathExists static_path then some static_path
    else
      match fs.readDir session_path with
      | some names =>
        let event_files := names.filter isEventsFileName
        let sorted := List.insertionSort (· ≤ ·) event_files
        match sorted.getLast? with
        | some latest => some (session_path ++ [latest])
        | none => none
      | none => none

/-- A supervised process record: the `(Child, PathBuf)` pair stored by
`ProcessManager` in `runner.rs` (the process handle reduced to its
pid). -/
structure ProcRecord where
  pid : Nat
  workingDir : FsPath
deriving DecidableEq

/-- The `ProcessManager` registry map, embedded as an association
list with `HashMap` lookup/insert/remove semantics. -/
abbrev Registry := List (Str × ProcRecord)

/-- Map lookup: the record stored under `sid`, if any. -/
def regLookup (r : Registry) (sid : Str) : Option ProcRecord :=
  (r.find? (fun e => decide (e.1 = sid))).map (fun e => e.2)

/-- Map removal: drop every entry stored under `sid`. -/
def regErase (r : Registry) (sid : Str) : Registry :=
  r.filter (fun e => decide (e.1 ≠ sid))

/-- Embeds `ProcessManager::store`: insert, replacing any previous
record under the same id. -/
def store (r : Registry) (sid : Str) (rec : ProcRecord) : Registry :=
  regErase r sid ++ [(sid, rec)]

/-- Embeds `ProcessManager::is_running`: a pure containment check. -/
def is_running (r : Registry) (sid : Str) : Bool :=
  (regLookup r sid).isSome

/-- Embeds `ProcessManager::get_working_dir`. -/
def get_working_dir (r : Registry) (sid : Str) : Option FsPath :=
  (regLookup r sid).map (fun rec => rec.workingDir)

/-- Embeds `ProcessManager::get_pid`. -/
def get_pid (r : Registry) (sid : Str) : Option Nat :=
  (regLookup r sid).map (fun rec => rec.pid)

/-- Outcome of one `Child::try_wait` poll of the external process. -/
inductive TryWaitOutcome
  | exited
  | stillRunning
  | checkErr
deriving DecidableEq

/-- The OS side of termination: what each successive `try_wait` poll
reports.  Signal-send, `kill` and `wait` failures need no model because
`terminate` discards every one of them (`let _ = ...`). -/
structure OsBehavior where
  tryWait : Nat → TryWaitOutcome

/-- The io error type of `terminate`'s result; no constructor is ever
used, mirroring that the source never produces an `Err`. -/
inductive IoError
deriving DecidableEq

/-- The bounded graceful-wait loop of `terminate` (`for _ in 0..20`):
sleep 100ms then `try_wait`; `true` when a poll observes the exit
(the early `return Ok(true)`), `false` on the 20 polls elapsing or a
poll error (the `break`). -/
def pollExited (os : OsBehavior) (i fuel : Nat) : Bool :=
  match fuel with
  | 0 => false
  | fuel' + 1 =>
    match os.tryWait i with
    | .exited => true
    | .stillRunning => pollExited os (i + 1) fuel'
    | .checkErr => false

/-- Embeds `ProcessManager::terminate`: when no record exists return
`Ok(false)` leaving the map unchanged; when one exists, remove it, send
the graceful signals (errors discarded), poll up to 2 seconds, then
force-kill and reap if needed (errors discarded), returning `Ok(true)`
from whichever branch applies. -/
def terminate (r : Registry) (sid : Str) (os : OsBehavior) :
    Except IoError Bool × Registry :=
  match regLookup r sid with
  | some _rec =>
    let r' := regErase r sid
    if pollExited os 0 20 then (Except.ok true, r')
    else (Except.ok true, r')
  | none => (Except.ok false, r)

/-- The primitive effects `terminate` performs, in program order, used
to examine what happens while the registry mutex is held.  `lockRelease`
is where the `MutexGuard` is dropped. -/
inductive TermEvent
  | lockAcquire
  | lockRelease
  | removeRecord
  | signalTermGroup
  | signalTermProc
  | sleep100ms
  | tryWaitCall
  | forceKill
  | reapWait
deriving DecidableEq

/-- The effect trace of the graceful-wait loop, with the flag telling
whether a poll observed the exit (the early return). -/
def pollTrace (os : OsBehavior) (i fuel : Nat) : List TermEvent × Bool :=
  match fuel with
  | 0 => ([], false)
  | fuel' + 1 =>
    match os.tryWait i with
    | .exited => ([TermEvent.sleep100ms, TermEvent.tryWaitCall], true)
    | .stillRunning =>
      let next := pollTrace os (i + 1) fuel'
      (TermEvent.sleep100ms :: TermEvent.tryWaitCall :: next.1, next.2)
    | .checkErr => ([TermEvent.sleep100ms, TermEvent.tryWaitCall], false)

/-- The effect trace of `ProcessManager::terminate` read off the
source: the guard is taken at the top of the function and, since it is
never dropped explicitly, released only when the function returns —
after the polling loop and any forced kill. -/
def terminateTrace (found : Bool) (os : OsBehavior) : List TermEvent :=
  if found then
    let p := pollTrace os 0 20
    [TermEvent.lockAcquire, TermEvent.removeRecord,
     TermEvent.signalTermGroup, TermEvent.signalTermProc] ++ p.1 ++
      (if p.2 then [] else [TermEvent.forceKill, TermEvent.reapWait]) ++
      [TermEvent.lockRelease]
  else [TermEvent.lockAcquire, TermEvent.lockRelease]

/-- Whether some sleep in the trace happens while the registry lock is
held; `held` is the lock state on entry. -/
def anySleepHeld (held : Bool) : List TermEvent → Bool
  | [] => false
  | e :: rest =>
    match e with
    | .lockAcquire => anySleepHeld true rest
    | .lockRelease => anySleepHeld false rest
    | .sleep100ms => held || anySleepHeld held rest
    | _ => anySleepHeld held rest

/-- An HTTP handler response reduced to its status code and the status
or error string of its JSON body. -/
structure ApiResponse where
  code : Nat
  body : Str
deriving DecidableEq

/-- Embeds `pause_session` from `runner.rs`: a pure existence check —
404 when no record exists, otherwise 200 with status `paused`; the
registry is read through `is_running` only and returned unchanged. -/
def pause_session (r : Registry) (sid : Str) : ApiResponse × Registry :=
  if is_running r sid then ({ code := 200, body := str "paused" }, r)
  else ({ code := 404, body := str "session_not_found" }, r)

/-- Embeds `resume_session` from `runner.rs`: the same existence check
answering with status `resumed`. -/
def resume_session (r : Registry) (sid : Str) : ApiResponse × Registry :=
  if is_running r sid then ({ code := 200, body := str "resumed" }, r)
  else ({ code := 404, body := str "session_not_found" }, r)

/-- Modelled from the spec: the structured progress record of the
`ralph-core` crate (declared outside the embedded sources), with the
fields the embedded tests exercise. -/
structure Event where
  topic : Str
  payload : Option Str
  ts : Str
deriving DecidableEq

/-- One appended log line as the reader classifies it: a well-formed
event or a malformed raw line. -/
inductive LogLine
  | good : Event → LogLine
  | bad : Str → LogLine
deriving DecidableEq

/-- The event of a well-formed line. -/
def LogLine.goodEvent : LogLine → Option Event
  | .good e => some e
  | .bad _ => none

/-- The raw text of a malformed line. -/
def LogLine.badRaw : LogLine → Option Str
  | .good _ => none
  | .bad s => some s

/-- Modelled from the spec: the `ParseResult` of the `ralph-core`
event reader — the ordered well-formed events and the malformed lines
of one read. -/
structure ParseResult where
  events : List Event
  malformed : List Str
deriving DecidableEq

/-- Classify a segment of log lines into a `ParseResult`, preserving
order. -/
def parseLines (ls : List LogLine) : ParseResult :=
  { events := ls.filterMap LogLine.goodEvent,
    malformed := ls.filterMap LogLine.badRaw }

/-- Modelled from the spec: `EventReader::read_new_events` of the
`ralph-core` crate (not among the embedded sources) — given the file's
lines and the cursor, return the events and malformed lines appended
since the cursor and advance the cursor to the end of the file;
malformed lines are counted, never fatal, and never block the cursor
advance (spec sections 2, 6 and 7). -/
def read_new_events (fileLines : List LogLine) (pos : Nat) : ParseResult × Nat :=
  (parseLines (fileLines.drop pos), fileLines.length)

/-- One subscriber of the broadcast channel: its pending queue and how
many events it has lost to lag. -/
structure Subscriber where
  queue : List Event
  lagDropped : Nat
deriving DecidableEq

/-- The broadcast channel capacity of `EventWatcher`
(`CHANNEL_CAPACITY`). -/
def channelCapacity : Nat := 100

/-- Modelled from the spec: the `tokio` broadcast hub at the boundary
of section 4.3 — per-subscriber bounded queues with oldest-dropped lag,
plus a log of every event handed to `send` in order. -/
structure Hub where
  subs : List Subscriber
  sent : List Event
deriving DecidableEq

/-- Deliver one event to one subscriber, dropping its oldest pending
event when the queue is at capacity (the lag condition). -/
def subRecv (e : Event) (s : Subscriber) : Subscriber :=
  if s.queue.length < channelCapacity then { s with queue := s.queue ++ [e] }
  else { queue := s.queue.drop 1 ++ [e], lagDropped := s.lagDropped + 1 }

/-- Modelled from the spec: `broadcast::Sender::send` — deliver to
every current subscriber and report `false` (the `Err` of the channel)
exactly when there are no subscribers. -/
def hubSend (h : Hub) (e : Event) : Hub × Bool :=
  ({ subs := h.subs.map (subRecv e), sent := h.sent ++ [e] }, !h.subs.isEmpty)

/-- Embeds `EventWatcher::broadcast_events`: send every event in order,
discarding each send's error result (`let _ = ...`). -/
def broadcast_events (h : Hub) (events : List Event) : Hub :=
  events.foldl (fun acc e => (hubSend acc e).1) h

/-- The notification kinds of the file change monitor; only modify and
create are actionable (`watcher.rs` matches `Modify(_) | Create(_)`). -/
inductive NotifyKind
  | modifyK
  | createK
  | otherK
deriving DecidableEq

/-- Whether a notification kind triggers a read. -/
def actionable : NotifyKind → Bool
  | .modifyK => true
  | .createK => true
  | .otherK => false

/-- One wake of the watcher's channel: a notification (carrying the
lines the external writer appended before the wake is handled) or a
watcher error.  Exhausting the list stands for the deadline elapsing
with the channel idle (`recv_timeout` failing). -/
inductive WatchMsg
  | note (kind : NotifyKind) (appended : List LogLine)
  | watchErr
deriving DecidableEq

/-- The watcher's state: the log file contents, the reader cursor, and
the broadcast hub. -/
structure WatchState where
  fileLines : List LogLine
  pos : Nat
  hub : Hub
deriving DecidableEq

/-- Embeds `EventWatcher::wait_for_events` over a wake sequence: skip
non-actionable notifications, re-block on a read with no new events and
no malformed lines, broadcast and return the first non-empty
`ParseResult`, and signal `none` on a watcher error or on the timeout
(the wake sequence running out).  Reader io failures are not modelled
(the spec-modelled reader is total). -/
def wait_for_events : List WatchMsg → WatchState → Option ParseResult × WatchState
  | [], s => (none, s)
  | .watchErr :: _, s => (none, s)
  | .note kind appended :: rest, s =>
    let lines := s.fileLines ++ appended
    if actionable kind then
      let rd := read_new_events lines s.pos
      if rd.1.events.isEmpty && rd.1.malformed.isEmpty then
        wait_for_events rest { fileLines := lines, pos := rd.2, hub := s.hub }
      else
        (some rd.1,
         { fileLines := lines, pos := rd.2, hub := broadcast_events s.hub rd.1.events })
    else
      wait_for_events rest { s with fileLines := lines }

/-- After erasing `sid`, no lookup of `sid` succeeds. -/
lemma regLookup_regErase_self (r : Registry) (sid : Str) :
    regLookup (regErase r sid) sid = none := by
  induction r with
  | nil => rfl
  | cons e t ih =>
    by_cases h : e.1 = sid
    · simp only [regErase, List.filter_cons, h] at ih ⊢
      simp only [decide_not] at ih
      simp [h, ih]
    · simp only [regErase, regLookup, List.filter_cons, List.find?, h] at ih ⊢
      simp only [decide_not] at ih
      simp [h, ih, regLookup]

/-- C1: terminating the same session twice returns `removed=true` then
`removed=false` with no error; immediately after the first call
`is_running` is false; and terminating an id with no stored record
always returns `Ok(false)` leaving the registry unchanged. -/
theorem terminate_idempotent :
    (∀ (r : Registry) (sid : Str) (os1 os2 : OsBehavior),
        is_running r sid = true →
          (terminate r sid os1).1 = Except.ok true ∧
          is_running (terminate r sid os1).2 sid = false ∧
          terminate (terminate r sid os1).2 sid os2 =
            (Except.ok false, (terminate r sid os1).2)) ∧
    (∀ (r : Registry) (sid : Str) (os : OsBehavior),
        regLookup r sid = none → terminate r sid os = (Except.ok false, r)) := by
  constructor
  · intro r sid os1 os2 hrun
    obtain ⟨rec, hlk⟩ : ∃ rec, regLookup r sid = some rec := by
      unfold is_running at hrun
      cases h : regLookup r sid with
      | none => rw [h] at hrun; simp at hrun
      | some rec => exact ⟨rec, rfl⟩
    have hterm : terminate r sid os1 = (Except.ok true, regErase r sid) := by
      simp [terminate, hlk]
    rw [hterm]
    refine ⟨rfl, ?_, ?_⟩
    · simp [is_running, regLookup_regErase_self]
    · simp [terminate, regLookup_regErase_self]
  · intro r sid os h
    simp [terminate, h]

/-- Witness for the C1 theorem at a one-entry registry. -/
theorem terminate_idempotent_witness :
    (terminate [(str "s", { pid := 7, workingDir := [str "tmp"] })] (str "s")
        { tryWait := fun _ => TryWaitOutcome.exited }).1 = Except.ok true ∧
    is_running (terminate [(str "s", { pid := 7, workingDir := [str "tmp"] })] (str "s")
        { tryWait := fun _ => TryWaitOutcome.exited }).2 (str "s") = false ∧
    terminate (terminate [(str "s", { pid := 7, workingDir := [str "tmp"] })] (str "s")
        { tryWait := fun _ => TryWaitOutcome.exited }).2 (str "s")
        { tryWait := fun _ => TryWaitOutcome.exited } =
      (Except.ok false,
       (terminate [(str "s", { pid := 7, workingDir := [str "tmp"] })] (str "s")
          { tryWait := fun _ => TryWaitOutcome.exited }).2) :=
  terminate_idempotent.1 [(str "s", { pid := 7, workingDir := [str "tmp"] })] (str "s")
    { tryWait := fun _ => TryWaitOutcome.exited }
    { tryWait := fun _ => TryWaitOutcome.exited } (by decide)

/-- C10: whenever a record exists, `terminate` returns `Ok(true)` —
never an `Err` — and removes the record unconditionally; and in every
case the result is some `Ok`, so the `Err` branch is unreachable. -/
theorem terminate_found_never_errs :
    (∀ (r : Registry) (sid : Str) (os : OsBehavior) (rec : ProcRecord),
        regLookup r sid = some rec →
          (terminate r sid os).1 = Except.ok true ∧
          (terminate r sid os).2 = regErase r sid) ∧
    (∀ (r : Registry) (sid : Str) (os : OsBehavior),
        ∃ b, (terminate r sid os).1 = Except.ok b) := by
  constructor
  · intro r sid os rec h
    constructor <;> simp [terminate, h]
  · intro r sid os
    cases h : regLookup r sid with
    | none => exact ⟨false, by simp [terminate, h]⟩
    | some rec => exact ⟨true, by simp [terminate, h]⟩

/-- Witness for the C10 theorem at a one-entry registry. -/
theorem terminate_found_never_errs_witness :
    (terminate [(str "a", { pid := 3, workingDir := [] })] (str "a")
        { tryWait := fun _ => TryWaitOutcome.stillRunning }).1 = Except.ok true ∧
    (terminate [(str "a", { pid := 3, workingDir := [] })] (str "a")
        { tryWait := fun _ => TryWaitOutcome.stillRunning }).2 =
      regErase [(str "a", { pid := 3, workingDir := [] })] (str "a") :=
  terminate_found_never_errs.1 [(str "a", { pid := 3, workingDir := [] })] (str "a")
    { tryWait := fun _ => TryWaitOutcome.stillRunning }
    { pid := 3, workingDir := [] } (by decide)

/-- C9: pause and resume are pure existence checks: 404
`session_not_found` when `is_running` is false, 200 with `paused` /
`resumed` when true, and the registry is returned unchanged in every
case (the handlers perform no registry operation besides the
`is_running` read). -/
theorem pause_resume_pure_existence :
    ∀ (r : Registry) (sid : Str),
      (is_running r sid = false →
          pause_session r sid = ({ code := 404, body := str "session_not_found" }, r) ∧
          resume_session r sid = ({ code := 404, body := str "session_not_found" }, r)) ∧
      (is_running r sid = true →
          pause_session r sid = ({ code := 200, body := str "paused" }, r) ∧
          resume_session r sid = ({ code := 200, body := str "resumed" }, r)) ∧
      (pause_session r sid).2 = r ∧ (resume_session r sid).2 = r := by
  intro r sid
  refine ⟨?_, ?_, ?_, ?_⟩
  · intro h
    constructor <;> simp [pause_session, resume_session, h]
  · intro h
    constructor <;> simp [pause_session, resume_session, h]
  · unfold pause_session; split <;> rfl
  · unfold resume_session; split <;> rfl

/-- Witness for the C9 theorem: the 404 case at an empty registry and
the 200 case at a one-entry registry. -/
theorem pause_resume_pure_existence_witness :
    (pause_session [] (str "x") = ({ code := 404, body := str "session_not_found" }, []) ∧
     resume_session [] (str "x") = ({ code := 404, body := str "session_not_found" }, [])) ∧
    (pause_session [(str "x", { pid := 1, workingDir := [] })] (str "x") =
        ({ code := 200, body := str "paused" }, [(str "x", { pid := 1, workingDir := [] })]) ∧
     resume_session [(str "x", { pid := 1, workingDir := [] })] (str "x") =
        ({ code := 200, body := str "resumed" }, [(str "x", { pid := 1, workingDir := [] })])) :=
  ⟨(pause_resume_pure_existence [] (str "x")).1 (by decide),
   ((pause_resume_pure_existence [(str "x", { pid := 1, workingDir := [] })] (str "x")).2).1 (by decide)⟩

/-- Within the polling loop's trace, some sleep happens while the lock
is held: every non-empty run of the loop begins with a sleep. -/
lemma anySleepHeld_pollTrace (os : OsBehavior) (i fuel : Nat) (rest : List TermEvent) :
    anySleepHeld true ((pollTrace os i (fuel + 1)).1 ++ rest) = true := by
  cases h : os.tryWait i <;> simp [pollTrace, h, anySleepHeld]

/-- C8 (divergence witness): `terminate`'s effect trace — as read off
the source, where the `MutexGuard` taken at the top of the function is
dropped only on return — always performs a sleep of the graceful-wait
loop while the registry lock is held, for every behavior of the
terminated process. -/
theorem terminate_sleeps_under_registry_lock :
    ∀ os : OsBehavior, anySleepHeld false (terminateTrace true os) = true := by
  intro os
  unfold terminateTrace
  rw [show (20 : Nat) = 19 + 1 from rfl]
  simp only [if_true, List.cons_append, List.nil_append, List.append_assoc, anySleepHeld,
    List.append_eq]
  exact anySleepHeld_pollTrace os 0 19 _

/-- Fixed-width hex rendering has exactly its width in characters. -/
lemma hexPad_length (w n : Nat) : (hexPad w n).length = w := by
  simp [hexPad]

/-- C5: a session id produced by path-hash discovery (sixteen hex
characters) is never equal to a spawn-time id rendered from a random
UUID v4 (thirty-six characters), whatever the hash and whatever the
random bits: the two identifier schemes are disjoint. -/
theorem path_hash_id_ne_uuid_id :
    ∀ (pathHash rand : Nat), session_id_from_path pathHash ≠ uuid_v4_string rand := by
  intro pathHash rand heq
  have h1 : (session_id_from_path pathHash).length = 16 := by
    simp [session_id_from_path, hexPad_length]
  have h2 : (uuid_v4_string rand).length = 36 := by
    simp [uuid_v4_string, hexPad_length, List.length_append]
  rw [heq, h2] at h1
  exact absurd h1 (by norm_num)

/-- C7: building a `Session` from a marker directory never fails on
account of metadata — the result is always `some`; and when the
scratchpad is absent, unreadable, or its content has no well-formed
frontmatter block, the session's `task_name` and `hat` are both
`none`. -/
theorem session_metadata_never_fails :
    ∀ (fs : FS) (dir : FsPath) (pathHash now : Nat),
      (session_from_agent_dir fs dir pathHash now).isSome = true ∧
      (fs.pathExists (dir ++ [str "scratchpad.md"]) = false →
        session_from_agent_dir fs dir pathHash now =
          some { id := session_id_from_path pathHash, path := dir, task_name := none,
                 iteration := 0, hat := none, started_at := now, last_event_at := none }) ∧
      (fs.pathExists (dir ++ [str "scratchpad.md"]) = true →
        fs.readToString (dir ++ [str "scratchpad.md"]) = none →
        session_from_agent_dir fs dir pathHash now =
          some { id := session_id_from_path pathHash, path := dir, task_name := none,
                 iteration := 0, hat := none, started_at := now, last_event_at := none }) ∧
      (∀ content,
        fs.pathExists (dir ++ [str "scratchpad.md"]) = true →
        fs.readToString (dir ++ [str "scratchpad.md"]) = some content →
        parse_frontmatter content = none →
        session_from_agent_dir fs dir pathHash now =
          some { id := session_id_from_path pathHash, path := dir, task_name := none,
                 iteration := 0, hat := none, started_at := now, last_event_at := none }) := by
  intro fs dir pathHash now
  refine ⟨?_, ?_, ?_, ?_⟩
  · simp [session_from_agent_dir]
  · intro h
    simp [session_from_agent_dir, h]
  · intro h hr
    simp [session_from_agent_dir, h, hr]
  · intro content h hr hp
    simp [session_from_agent_dir, h, hr, hp]

/-- Witness for the C7 theorem: a scratchpad whose content has no
frontmatter block yields a session with no task name and no hat. -/
theorem session_metadata_never_fails_witness :
    session_from_agent_dir
      { files := [([str ".agent", str "scratchpad.md"], str "# Just a header")],
        dirs := [[str ".agent"]] }
      [str ".agent"] 5 9 =
      some { id := session_id_from_path 5, path := [str ".agent"], task_name := none,
             iteration := 0, hat := none, started_at := 9, last_event_at := none } :=
  (session_metadata_never_fails
      { files := [([str ".agent", str "scratchpad.md"], str "# Just a header")],
        dirs := [[str ".agent"]] }
      [str ".agent"] 5 9).2.2.2 (str "# Just a header") (by decide) (by decide) (by decide)

/-- Unfolding equation for one notification wake of
`wait_for_events`. -/
lemma wait_note (kind : NotifyKind) (appended : List LogLine) (rest : List WatchMsg)
    (s : WatchState) :
    wait_for_events (WatchMsg.note kind appended :: rest) s =
      if actionable kind then
        if (read_new_events (s.fileLines ++ appended) s.pos).1.events.isEmpty &&
           (read_new_events (s.fileLines ++ appended) s.pos).1.malformed.isEmpty then
          wait_for_events rest
            { fileLines := s.fileLines ++ appended,
              pos := (read_new_events (s.fileLines ++ appended) s.pos).2, hub := s.hub }
        else
          (some (read_new_events (s.fileLines ++ appended) s.pos).1,
           { fileLines := s.fileLines ++ appended,
             pos := (read_new_events (s.fileLines ++ appended) s.pos).2,
             hub := broadcast_events s.hub
               (read_new_events (s.fileLines ++ appended) s.pos).1.events })
      else wait_for_events rest { s with fileLines := s.fileLines ++ appended } := rfl

/-- `broadcast_events` appends exactly its argument list, in order, to
the hub's send log. -/
lemma broadcast_events_sent (h : Hub) (es : List Event) :
    (broadcast_events h es).sent = h.sent ++ es := by
  induction es generalizing h with
  | nil => simp [broadcast_events]
  | cons e t ih =>
    show (broadcast_events (hubSend h e).1 t).sent = _
    rw [ih]
    simp [hubSend]

/-- C3: whenever `wait_for_events` returns a `ParseResult`, exactly
that result's well-formed events are handed to the broadcast channel,
in file order (the hub's send log is extended by exactly
`result.events`); the result's events and malformed lines are the
classification of a contiguous segment of log lines, in order; and the
cursor still advances to the end of the file, malformed lines
notwithstanding. -/
theorem wait_broadcasts_exactly_parsed :
    ∀ (msgs : List WatchMsg) (s : WatchState) (r : ParseResult) (s' : WatchState),
      wait_for_events msgs s = (some r, s') →
        s'.hub.sent = s.hub.sent ++ r.events ∧
        s'.pos = s'.fileLines.length ∧
        ∃ seg : List LogLine,
          r.events = seg.filterMap LogLine.goodEvent ∧
          r.malformed = seg.filterMap LogLine.badRaw := by
  intro msgs
  induction msgs with
  | nil =>
    intro s r s' h
    simp [wait_for_events] at h
  | cons m rest ih =>
    intro s r s' h
    cases m with
    | watchErr => simp [wait_for_events] at h
    | note kind appended =>
      rw [wait_note] at h
      by_cases ha : actionable kind = true
      · rw [if_pos ha] at h
        by_cases he : ((read_new_events (s.fileLines ++ appended) s.pos).1.events.isEmpty &&
            (read_new_events (s.fileLines ++ appended) s.pos).1.malformed.isEmpty) = true
        · rw [if_pos he] at h
          have := ih _ _ _ h
          simpa using this
        · rw [if_neg he] at h
          rw [Prod.mk.injEq] at h
          obtain ⟨h1, h2⟩ := h
          rw [Option.some.injEq] at h1
          subst h1
          subst h2
          refine ⟨broadcast_events_sent s.hub _, rfl, ?_⟩
          exact ⟨(s.fileLines ++ appended).drop s.pos, rfl, rfl⟩
      · rw [if_neg ha] at h
        have := ih _ _ _ h
        simpa using this

/-- The concrete wake used to witness the C3 theorem: a well-formed
event, a malformed line, then another well-formed event. -/
def c3appended : List LogLine :=
  [LogLine.good { topic := str "iteration.started", payload := none,
                  ts := str "2024-01-01T00:00:00Z" },
   LogLine.bad (str "not json"),
   LogLine.good { topic := str "iteration.completed", payload := none,
                  ts := str "2024-01-01T00:01:00Z" }]

/-- The concrete initial watcher state used to witness the C3
theorem. -/
def c3state : WatchState :=
  { fileLines := [], pos := 0, hub := { subs := [], sent := [] } }

/-- The `ParseResult` the C3 witness wake produces: two events, one
malformed line. -/
def c3result : ParseResult :=
  { events := [{ topic := str "iteration.started", payload := none,
                 ts := str "2024-01-01T00:00:00Z" },
               { topic := str "iteration.completed", payload := none,
                 ts := str "2024-01-01T00:01:00Z" }],
    malformed := [str "not json"] }

/-- Witness for the C3 theorem: the wake delivers exactly the two
well-formed events to the hub in order, reports one malformed line, and
advances the cursor to the end of the file. -/
theorem wait_broadcasts_exactly_parsed_witness :
    ((wait_for_events [WatchMsg.note NotifyKind.modifyK c3appended] c3state).2).hub.sent =
      c3state.hub.sent ++ c3result.events ∧
    ((wait_for_events [WatchMsg.note NotifyKind.modifyK c3appended] c3state).2).pos =
      ((wait_for_events [WatchMsg.note NotifyKind.modifyK c3appended] c3state).2).fileLines.length ∧
    ∃ seg : List LogLine,
      c3result.events = seg.filterMap LogLine.goodEvent ∧
      c3result.malformed = seg.filterMap LogLine.badRaw :=
  wait_broadcasts_exactly_parsed [WatchMsg.note NotifyKind.modifyK c3appended] c3state c3result
    (wait_for_events [WatchMsg.note NotifyKind.modifyK c3appended] c3state).2 (by decide)

/-- C4: a wake whose read yields zero new events and zero malformed
lines does not return to the caller — `wait_for_events` re-blocks and
continues with the remaining wakes inside the deadline; and when the
deadline elapses with no qualifying activity (the wake sequence runs
out, or every wake carried no appended lines) the result is the
no-update signal `none`, not an error. -/
theorem wait_spurious_reblocks_timeout_none :
    (∀ (kind : NotifyKind) (appended : List LogLine) (rest : List WatchMsg) (s : WatchState),
        actionable kind = true →
        (parseLines ((s.fileLines ++ appended).drop s.pos)).events = [] →
        (parseLines ((s.fileLines ++ appended).drop s.pos)).malformed = [] →
        wait_for_events (WatchMsg.note kind appended :: rest) s =
          wait_for_events rest
            { fileLines := s.fileLines ++ appended,
              pos := (s.fileLines ++ appended).length, hub := s.hub }) ∧
    (∀ s : WatchState, wait_for_events [] s = (none, s)) ∧
    (∀ (msgs : List WatchMsg) (s : WatchState),
        s.pos = s.fileLines.length →
        (∀ m ∈ msgs, ∃ k, m = WatchMsg.note k []) →
        (wait_for_events msgs s).1 = none) := by
  refine ⟨?_, fun s => rfl, ?_⟩
  · intro kind appended rest s ha he hm
    rw [wait_note, if_pos ha]
    have hempty : ((read_new_events (s.fileLines ++ appended) s.pos).1.events.isEmpty &&
        (read_new_events (s.fileLines ++ appended) s.pos).1.malformed.isEmpty) = true := by
      simp [read_new_events, he, hm]
    rw [if_pos hempty]
    rfl
  · intro msgs
    induction msgs with
    | nil => intro s _ _; rfl
    | cons m rest ih =>
      intro s hpos hall
      obtain ⟨k, rfl⟩ := hall m (List.mem_cons_self m rest)
      rw [wait_note]
      by_cases ha : actionable k = true
      · rw [if_pos ha]
        have hempty : ((read_new_events (s.fileLines ++ []) s.pos).1.events.isEmpty &&
            (read_new_events (s.fileLines ++ []) s.pos).1.malformed.isEmpty) = true := by
          simp [read_new_events, parseLines, hpos, List.drop_length]
        rw [if_pos hempty]
        apply ih
        · simp [read_new_events]
        · intro m hm
          exact hall m (List.mem_cons_of_mem _ hm)
      · rw [if_neg ha]
        apply ih
        · simpa using hpos
        · intro m hm
          exact hall m (List.mem_cons_of_mem _ hm)

/-- Witness for the C4 theorem: an actionable wake with nothing
appended re-blocks, and an all-spurious wake sequence ends in the
no-update signal. -/
theorem wait_spurious_reblocks_timeout_none_witness :
    (wait_for_events [WatchMsg.note NotifyKind.modifyK [], WatchMsg.note NotifyKind.otherK []]
        c3state =
      wait_for_events [WatchMsg.note NotifyKind.otherK []]
        { fileLines := c3state.fileLines ++ [], pos := (c3state.fileLines ++ []).length,
          hub := c3state.hub }) ∧
    wait_for_events [] c3state = (none, c3state) ∧
    (wait_for_events [WatchMsg.note NotifyKind.modifyK [], WatchMsg.note NotifyKind.otherK []]
        c3state).1 = none :=
  ⟨wait_spurious_reblocks_timeout_none.1 NotifyKind.modifyK []
      [WatchMsg.note NotifyKind.otherK []] c3state (by decide) (by decide) (by decide),
   wait_spurious_reblocks_timeout_none.2.1 c3state,
   wait_spurious_reblocks_timeout_none.2.2
     [WatchMsg.note NotifyKind.modifyK [], WatchMsg.note NotifyKind.otherK []] c3state
     (by decide)
     (by
       intro m hm
       simp only [List.mem_cons, List.not_mem_nil, or_false] at hm
       rcases hm with rfl | rfl
       · exact ⟨NotifyKind.modifyK, rfl⟩
       · exact ⟨NotifyKind.otherK, rfl⟩)⟩

/-- C6: a publish with zero current subscribers is a no-op, not an
error — `hubSend` reports the channel's no-receiver result only as a
discarded flag and leaves the (empty) subscriber list as is,
`broadcast_events` completes for every event list, and
`wait_for_events` returns the same `ParseResult`, cursor and file view
whatever hub (and so whatever subscriber count) it runs with. -/
theorem publish_zero_subscribers_noop :
    (∀ (h : Hub) (e : Event), h.subs = [] →
        (hubSend h e).2 = false ∧ (hubSend h e).1.subs = []) ∧
    (∀ (h : Hub) (es : List Event), h.subs = [] → (broadcast_events h es).subs = []) ∧
    (∀ (msgs : List WatchMsg) (lines : List LogLine) (pos : Nat) (h1 h2 : Hub),
        (wait_for_events msgs { fileLines := lines, pos := pos, hub := h1 }).1 =
          (wait_for_events msgs { fileLines := lines, pos := pos, hub := h2 }).1 ∧
        (wait_for_events msgs { fileLines := lines, pos := pos, hub := h1 }).2.fileLines =
          (wait_for_events msgs { fileLines := lines, pos := pos, hub := h2 }).2.fileLines ∧
        (wait_for_events msgs { fileLines := lines, pos := pos, hub := h1 }).2.pos =
          (wait_for_events msgs { fileLines := lines, pos := pos, hub := h2 }).2.pos) := by
  refine ⟨?_, ?_, ?_⟩
  · intro h e hs
    constructor <;> simp [hubSend, hs]
  · intro h es
    induction es generalizing h with
    | nil => intro hs; simpa [broadcast_events] using hs
    | cons e t ih =>
      intro hs
      show (broadcast_events (hubSend h e).1 t).subs = []
      apply ih
      simp [hubSend, hs]
  · intro msgs
    induction msgs with
    | nil => intro lines pos h1 h2; exact ⟨rfl, rfl, rfl⟩
    | cons m rest ih =>
      intro lines pos h1 h2
      cases m with
      | watchErr => exact ⟨rfl, rfl, rfl⟩
      | note kind appended =>
        rw [wait_note, wait_note]
        by_cases ha : actionable kind = true
        · rw [if_pos ha, if_pos ha]
          by_cases he : ((read_new_events (lines ++ appended) pos).1.events.isEmpty &&
              (read_new_events (lines ++ appended) pos).1.malformed.isEmpty) = true
          · rw [if_pos he, if_pos he]
            exact ih (lines ++ appended) (read_new_events (lines ++ appended) pos).2 h1 h2
          · rw [if_neg he, if_neg he]
            exact ⟨rfl, rfl, rfl⟩
        · rw [if_neg ha, if_neg ha]
          exact ih (lines ++ appended) pos h1 h2

/-- Witness for the C6 theorem: sending to a hub with no subscribers
reports the discarded error flag and changes no subscriber, and a
non-empty read returns the identical `ParseResult` under an empty hub
and under a one-subscriber hub. -/
theorem publish_zero_subscribers_noop_witness :
    ((hubSend { subs := [], sent := [] }
        { topic := str "t", payload := none, ts := str "now" }).2 = false ∧
     (hubSend { subs := [], sent := [] }
        { topic := str "t", payload := none, ts := str "now" }).1.subs = []) ∧
    (broadcast_events { subs := [], sent := [] }
        [{ topic := str "t", payload := none, ts := str "now" }]).subs = [] ∧
    (wait_for_events [WatchMsg.note NotifyKind.modifyK c3appended]
        { fileLines := [], pos := 0, hub := { subs := [], sent := [] } }).1 =
      (wait_for_events [WatchMsg.note NotifyKind.modifyK c3appended]
        { fileLines := [], pos := 0,
          hub := { subs := [{ queue := [], lagDropped := 0 }], sent := [] } }).1 :=
  ⟨publish_zero_subscribers_noop.1 { subs := [], sent := [] }
      { topic := str "t", payload := none, ts := str "now" } rfl,
   publish_zero_subscribers_noop.2.1 { subs := [], sent := [] }
      [{ topic := str "t", payload := none, ts := str "now" }] rfl,
   (publish_zero_subscribers_noop.2.2 [WatchMsg.note NotifyKind.modifyK c3appended] [] 0
      { subs := [], sent := [] } { subs := [{ queue := [], lagDropped := 0 }], sent := [] }).1⟩

/-- In a list sorted by `≤`, every element is at most the last one. -/
lemma le_getLast_of_sorted :
    ∀ (l : List Str), List.Sorted (fun a b : Str => a ≤ b) l →
      ∀ (m : Str), l.getLast? = some m → ∀ x ∈ l, x ≤ m := by
  intro l
  induction l with
  | nil => intro _ m hm; simp at hm
  | cons a t ih =>
    intro hs m hm x hx
    rw [List.sorted_cons] at hs
    cases t with
    | nil =>
      simp only [List.getLast?_singleton, Option.some.injEq] at hm
      subst hm
      have hxa := List.mem_singleton.mp hx
      subst hxa
      exact le_refl _
    | cons b t' =>
      rw [List.getLast?_cons_cons] at hm
      rcases List.mem_cons.mp hx with rfl | hxt
      · have hne : b :: t' ≠ [] := by simp
        rw [List.getLast?_eq_getLast _ hne, Option.some.injEq] at hm
        subst hm
        exact hs.1 _ (List.getLast_mem hne)
      · exact ih hs.2 m hm x hxt

/-- The ways step (1) of `resolve_events_path` can fail to produce a
path: the pointer file does not exist, it cannot be read, or the file
it names does not exist. -/
def pointerStepFails (fs : FS) (sp : FsPath) : Prop :=
  fs.pathExists (sp ++ [str "current-events"]) = false ∨
  fs.readToString (sp ++ [str "current-events"]) = none ∨
  ∃ contents, fs.readToString (sp ++ [str "current-events"]) = some contents ∧
    fs.pathExists (pathJoinRel (parentOr sp) (rust_trim contents)) = false

/-- When the pointer step fails, resolution continues with the static
file and the timestamped-file fallback. -/
lemma resolve_events_path_of_pointer_fails (fs : FS) (sp : FsPath)
    (hpf : pointerStepFails fs sp) :
    resolve_events_path fs sp =
      (if fs.pathExists (sp ++ [str "events.jsonl"]) then some (sp ++ [str "events.jsonl"])
       else
         match fs.readDir sp with
         | some names =>
           match (List.insertionSort (· ≤ ·) (names.filter isEventsFileName)).getLast? with
           | some latest => some (sp ++ [latest])
           | none => none
         | none => none) := by
  unfold resolve_events_path
  rcases hpf with h1 | h2 | ⟨c, hc, hnx⟩
  · simp only [h1]
    rfl
  · by_cases hpe : fs.pathExists (sp ++ [str "current-events"]) = true
    · simp only [hpe, if_true, h2]
    · simp only [hpe]
      rfl
  · by_cases hpe : fs.pathExists (sp ++ [str "current-events"]) = true
    · simp only [hpe, if_true, hc, hnx]
      rfl
    · simp only [hpe]
      rfl

/-- C2: resolution precedence of `resolve_events_path` — (1) the path
named by an existing, readable pointer whose resolved target exists is
returned, whatever other files exist; (2) otherwise `events.jsonl` in
the marker directory when present; (3) otherwise the
lexicographically-greatest `events-*.jsonl` entry name; (4) otherwise
`none`. -/
theorem resolve_events_path_precedence :
    ∀ (fs : FS) (sp : FsPath),
      (∀ contents,
          fs.pathExists (sp ++ [str "current-events"]) = true →
          fs.readToString (sp ++ [str "current-events"]) = some contents →
          fs.pathExists (pathJoinRel (parentOr sp) (rust_trim contents)) = true →
          resolve_events_path fs sp =
            some (pathJoinRel (parentOr sp) (rust_trim contents))) ∧
      (pointerStepFails fs sp →
          fs.pathExists (sp ++ [str "events.jsonl"]) = true →
          resolve_events_path fs sp = some (sp ++ [str "events.jsonl"])) ∧
      (∀ names, pointerStepFails fs sp →
          fs.pathExists (sp ++ [str "events.jsonl"]) = false →
          fs.readDir sp = some names →
          names.filter isEventsFileName ≠ [] →
          ∃ m, resolve_events_path fs sp = some (sp ++ [m]) ∧
            m ∈ names.filter isEventsFileName ∧
            ∀ x ∈ names.filter isEventsFileName, x ≤ m) ∧
      (pointerStepFails fs sp →
          fs.pathExists (sp ++ [str "events.jsonl"]) = false →
          (fs.readDir sp = none ∨
            ∀ names, fs.readDir sp = some names → names.filter isEventsFileName = []) →
          resolve_events_path fs sp = none) := by
  intro fs sp
  refine ⟨?_, ?_, ?_, ?_⟩
  · intro contents hpe hrd hful
    unfold resolve_events_path
    simp only [hpe, if_true, hrd, hful]
  · intro hpf hst
    rw [resolve_events_path_of_pointer_fails fs sp hpf]
    simp only [hst, if_true]
  · intro names hpf hst hrd hne
    rw [resolve_events_path_of_pointer_fails fs sp hpf]
    simp only [hst, Bool.false_eq_true, if_false, hrd]
    have hperm := List.perm_insertionSort (fun a b : Str => a ≤ b)
      (names.filter isEventsFileName)
    have hsne : List.insertionSort (fun a b : Str => a ≤ b)
        (names.filter isEventsFileName) ≠ [] := by
      intro h0
      rw [h0] at hperm
      exact hne (List.Perm.nil_eq hperm).symm
    have hm : (List.insertionSort (fun a b : Str => a ≤ b)
        (names.filter isEventsFileName)).getLast? =
        some ((List.insertionSort (fun a b : Str => a ≤ b)
          (names.filter isEventsFileName)).getLast hsne) :=
      List.getLast?_eq_getLast _ hsne
    refine ⟨(List.insertionSort (fun a b : Str => a ≤ b)
        (names.filter isEventsFileName)).getLast hsne, ?_, ?_, ?_⟩
    · rw [hm]
    · exact (List.mem_insertionSort _).mp (List.getLast_mem hsne)
    · intro x hx
      exact le_getLast_of_sorted _
        (List.sorted_insertionSort (fun a b : Str => a ≤ b) (names.filter isEventsFileName))
        _ hm x ((List.mem_insertionSort _).mpr hx)
  · intro hpf hst hrest
    rw [resolve_events_path_of_pointer_fails fs sp hpf]
    simp only [hst, Bool.false_eq_true, if_false]
    rcases hrest with h | h
    · rw [h]
    · cases hrd : fs.readDir sp with
      | none => rfl
      | some names =>
        have hf := h names hrd
        simp [hf, List.insertionSort]

/-- The concrete marker directory used to witness the C2 theorem: a
pointer file, the fixed-name `events.jsonl`, and two timestamped files
all exist at once. -/
def c2fs : FS :=
  { files := [([str ".ralph", str "current-events"], str ".ralph/events-2.jsonl"),
              ([str ".ralph", str "events-2.jsonl"], str ""),
              ([str ".ralph", str "events.jsonl"], str ""),
              ([str ".ralph", str "events-1.jsonl"], str "")],
    dirs := [[str ".ralph"]] }

/-- Witness for the C2 theorem: with pointer, fixed-name and
timestamped files all present, resolution returns the file the pointer
names. -/
theorem resolve_events_path_precedence_witness :
    resolve_events_path c2fs [str ".ralph"] =
      some (pathJoinRel (parentOr [str ".ralph"])
        (rust_trim (str ".ralph/events-2.jsonl"))) :=
  (resolve_events_path_precedence c2fs [str ".ralph"]).1 (str ".ralph/events-2.jsonl")
    (by decide) (by decide) (by decide)
